import Mathlib

/-!
Verification of the tempo-resolution and chart-assembly core of
`ultimate_chord_reader` against its specification.

The embedding models the pure post-detection logic of
`src/bpm_drums.py` (`get_bpm_from_drums`, lines 90-117) and the chart
formatter `src/ultimate_chord_reader.py` (`format_chart`, lines 110-218).

Modelling conventions:
* Python floats (times, BPM, scores) are modelled as exact rationals `ℚ`;
  decimal constants of the source (`0.25`, `0.7`, `1.3`, `0.9`, `1.1`)
  become the exact fractions they denote.
* Python `while` loops become fuelled structural recursions; the fuel is
  chosen (and proved below) to exceed the number of iterations the Python
  loop performs, so the fuelled function computes the loop's result on
  every input on which the Python loop terminates.  Guards of the form
  `0 < est` are added exactly where the Python loop would diverge
  otherwise (those inputs are unreachable in the pipeline).
* Audio I/O (Demucs separation, librosa beat tracking, lines 84-88 of
  `bpm_drums.py`) is abstracted into the two values it produces: the raw
  detector tempo `est_tempo` and the beat-time list `beat_times`.
* Python exceptions become `Except String`; list indexing uses `getD`
  with defaults that are provably never used at the call sites.
-/

namespace UCR

set_option maxRecDepth 40000

/-- Lyric segment `(start_time, end_time, text, confidence)` as passed to
`format_chart` (produced by `lyrics.transcribe`). -/
abbrev LyricSeg : Type := ℚ × ℚ × String × ℚ

/-- Chord event `(chord_name, onset_time, similarity_score)` as passed to
`format_chart` (produced by `chords.analyze_instrumental`). -/
abbrev ChordEvt : Type := String × ℚ × ℚ

/-- Python `str.rstrip()`: drop trailing whitespace.  The strings of this
program only contain ASCII whitespace, which `Char.isWhitespace` covers. -/
def rstrip (s : String) : String :=
  String.mk ((s.data.reverse.dropWhile Char.isWhitespace).reverse)

/-- Python `str.lstrip()`: drop leading whitespace. -/
def lstrip (s : String) : String :=
  String.mk (s.data.dropWhile Char.isWhitespace)

/-- Python `str.strip()`: drop whitespace at both ends. -/
def strip (s : String) : String := lstrip (rstrip s)

/-- Python `sep.join(parts)`. -/
def joinSep (sep : String) : List String → String
  | [] => ""
  | [x] => x
  | x :: y :: xs => x ++ sep ++ joinSep sep (y :: xs)

/-- Insert a rational into a sorted list (auxiliary for `sortQ`). -/
def insertSorted (x : ℚ) : List ℚ → List ℚ
  | [] => [x]
  | y :: ys => if x ≤ y then x :: y :: ys else y :: insertSorted x ys

/-- Sort a list of rationals (insertion sort).  Only the sorted result
matters for `median`, so the choice of algorithm is immaterial. -/
def sortQ (l : List ℚ) : List ℚ := l.foldr insertSorted []

/-- `statistics.median` / `np.median`: the middle element of the sorted
list for odd length, the mean of the two middle elements for even length.
Both callers in the source pass a nonempty list (Python raises / returns
nan on the empty list; the default `0` here is never reached). -/
def median (l : List ℚ) : ℚ :=
  let s := sortQ l
  if s.length % 2 = 1 then s.getD (s.length / 2) 0
  else (s.getD (s.length / 2 - 1) 0 + s.getD (s.length / 2) 0) / 2

/-- Number of `'\n'` characters in a string; a string with `n` newline
characters prints as `n + 1` lines. -/
def newline_count (s : String) : ℕ := s.data.count '\n'

/-!  ### Octave folding (`src/bpm_drums.py`, lines 102-105)  -/

/-- Fuelled model of `while bpm > 160: bpm /= 2`. -/
def fold_down_fuel : ℕ → ℚ → ℚ
  | 0, b => b
  | fuel + 1, b => if 160 < b then fold_down_fuel fuel (b / 2) else b

/-- Fuelled model of `while bpm < 60: bpm *= 2`.  For `b ≤ 0` the Python
loop diverges; the fuel `Nat.ceil (60 / b)` is `0` there and the function
returns its argument. -/
def fold_up_fuel : ℕ → ℚ → ℚ
  | 0, b => b
  | fuel + 1, b => if b < 60 then fold_up_fuel fuel (b * 2) else b

/-- `while bpm > 160: bpm /= 2` with fuel `Nat.ceil b`, which bounds the
iteration count of the loop (proved in `fold_down_fuel_le`). -/
def fold_down (b : ℚ) : ℚ := fold_down_fuel (Nat.ceil b) b

/-- `while bpm < 60: bpm *= 2` with fuel `Nat.ceil (60 / b)`, which bounds
the iteration count of the loop (proved in `fold_up_fuel_ge`). -/
def fold_up (b : ℚ) : ℚ := fold_up_fuel (Nat.ceil (60 / b)) b

/-- Octave folding, `src/bpm_drums.py` lines 102-105: first the halving
loop, then the doubling loop. -/
def octave_fold (b : ℚ) : ℚ := fold_up (fold_down b)

/-!  ### `%.1f` formatting (used in error messages and the chart header) -/

/-- Round-half-even to an integer, as Python uses when formatting the
decimal value of a float.  (Python formats the binary double, which can
differ from the exact decimal at representation boundaries; all values
formatted in this development are exactly representable.) -/
def round_half_even (q : ℚ) : ℤ :=
  if q - Int.floor q < 1 / 2 then Int.floor q
  else if 1 / 2 < q - Int.floor q then Int.floor q + 1
  else if Int.floor q % 2 = 0 then Int.floor q else Int.floor q + 1

/-- Python `f"{q:.1f}"` for the nonnegative values formatted by this
program (for negative values Python can additionally print `-0.0`). -/
def fmtFix1 (q : ℚ) : String :=
  (if round_half_even (q * 10) < 0 then "-" else "")
    ++ toString ((round_half_even (q * 10)).natAbs / 10)
    ++ "." ++ toString ((round_half_even (q * 10)).natAbs % 10)

/-!  ### `get_bpm_from_drums` (`src/bpm_drums.py`, lines 81-117)  -/

/-- `ibi = np.diff(beat_times)`: consecutive inter-beat intervals. -/
def ibi_of (beat_times : List ℚ) : List ℚ :=
  List.zipWith (fun a b => b - a) beat_times beat_times.tail

/-- `good = ibi[(ibi > 0.7 * med) & (ibi < 1.3 * med)]` with
`med = np.median(ibi)` (`src/bpm_drums.py`, lines 94-95). -/
def good_ibi (beat_times : List ℚ) : List ℚ :=
  (ibi_of beat_times).filter fun x =>
    decide (7 / 10 * median (ibi_of beat_times) < x ∧ x < 13 / 10 * median (ibi_of beat_times))

/-- Pure post-detection logic of `get_bpm_from_drums`
(`src/bpm_drums.py`, lines 90-117).  The Demucs/librosa detection
(lines 84-88) is abstracted into its outputs `est_tempo` (the detector's
raw tempo estimate) and `beat_times`; each `raise RuntimeError(msg)`
becomes `.error msg`. -/
def get_bpm_from_drums (est_tempo : ℚ) (beat_times : List ℚ) :
    Except String (ℚ × List ℚ) :=
  if beat_times.length < 4 then .error "Too few beats detected"
  else if ((good_ibi beat_times).length : ℚ) < max 3 (((ibi_of beat_times).length : ℚ) / 2) then
    .error "Inconsistent beat intervals"
  else if ¬ (9 / 10 * est_tempo ≤ octave_fold (60 / median (good_ibi beat_times)) ∧
      octave_fold (60 / median (good_ibi beat_times)) ≤ 11 / 10 * est_tempo) then
    .error ("Unreliable BPM (raw " ++ fmtFix1 est_tempo ++ ", filtered "
      ++ fmtFix1 (octave_fold (60 / median (good_ibi beat_times))) ++ ")")
  else .ok (octave_fold (60 / median (good_ibi beat_times)), beat_times)

/-!  ### `format_chart` (`src/ultimate_chord_reader.py`, lines 110-218)  -/

/-- Display cap: `MAX_CHANGES_PER_BAR = 2`
(`src/ultimate_chord_reader.py`, line 86). -/
def MAX_CHANGES_PER_BAR : ℕ := 2

/-- The disclaimer block (`src/ultimate_chord_reader.py`, lines 88-92). -/
def DISCLAIMER : String :=
  "ULTIMATE CHORD READER uses automated stem separation and AI analysis.\nAll audio files and stems are automatically deleted immediately after processing.\nResults are best‑effort guesses; verify before public use.\n"

/-- Python `int(cs)` on a digit string (`none` models the `ValueError`
raised on non-digit input; never hit for the `"4/4"` used here). -/
def parse_nat (cs : List Char) : Option ℕ :=
  if cs ≠ [] ∧ cs.all Char.isDigit then
    some (cs.foldl (fun n c => 10 * n + (c.toNat - 48)) 0)
  else none

/-- `beats_per_bar = int(time_sig.split("/")[0]) if "/" in time_sig else 4`
(`src/ultimate_chord_reader.py`, line 132).  The first field of the split
is the prefix before the first `'/'`. -/
def beats_per_bar (time_sig : String) : ℕ :=
  if time_sig.data.contains '/' then
    (parse_nat (time_sig.data.takeWhile (fun c => c ≠ '/'))).getD 0
  else 4

/-- Running maximum of the lyric end times against `0.0`
(`src/ultimate_chord_reader.py`, lines 148-150). -/
def last_time_lyrics (lyrics : List LyricSeg) : ℚ :=
  if lyrics.isEmpty then 0 else (lyrics.map (fun l => l.2.1)).foldl max 0

/-- `last_time` (`src/ultimate_chord_reader.py`, lines 148-154): the
maximum of `0`, the lyric end times, the last chord onset and the last
beat time, each taken only when the corresponding list is nonempty. -/
def last_time (lyrics : List LyricSeg) (chords : List ChordEvt)
    (beat_times : List ℚ) : ℚ :=
  let t1 := last_time_lyrics lyrics
  let t2 := match chords.getLast? with
    | some c => max t1 c.2.1
    | none => t1
  match beat_times.getLast? with
  | some b => max t2 b
  | none => t2

/-- `bar_starts = [beat_times[i] for i in range(0, len(beat_times),
beats_per_bar)] if beat_times else [0.0]` (line 156).  `range` with a
positive step is the set of indices below the length that are divisible by
the step (for `bpb = 0` Python raises; this program always passes `4`). -/
def bar_starts_init (beat_times : List ℚ) (bpb : ℕ) : List ℚ :=
  if beat_times.isEmpty then [0]
  else ((List.range beat_times.length).filter (fun i => decide (i % bpb = 0))).map
    (fun i => beat_times.getD i 0)

/-- Loop `while len(bar_starts) > 1 and bar_starts[-1] >= last_time:
bar_starts.pop()` (lines 158-159), run on the reversed list: drop from the
front while more than one element remains and the front is `≥ last_time`. -/
def pop_trailing_aux (lt : ℚ) : List ℚ → List ℚ
  | [] => []
  | x :: xs => if xs ≠ [] ∧ lt ≤ x then pop_trailing_aux lt xs else x :: xs

/-- Drop trailing bar starts that are `≥ last_time`, keeping at least one
(`src/ultimate_chord_reader.py`, lines 158-159). -/
def pop_trailing (l : List ℚ) (lt : ℚ) : List ℚ :=
  (pop_trailing_aux lt l.reverse).reverse

/-- `bar_len_est` (lines 161-166): the median inter-beat interval times
`beats_per_bar` when at least two beats exist, else the BPM-derived
`bar_len`. -/
def bar_len_est (beat_times : List ℚ) (bpb : ℕ) (bar_len : ℚ) : ℚ :=
  if 1 < beat_times.length then
    median (List.zipWith (fun a b => b - a) beat_times beat_times.tail) * bpb
  else bar_len

/-- Fuelled model of `while bar_starts[-1] + bar_len_est < last_time:
bar_starts.append(bar_starts[-1] + bar_len_est)` (lines 167-168). -/
def extend_bars_fuel (est lt : ℚ) : ℕ → List ℚ → List ℚ
  | 0, l => l
  | fuel + 1, l =>
    if l.getLastD 0 + est < lt then
      extend_bars_fuel est lt fuel (l ++ [l.getLastD 0 + est])
    else l

/-- The appending loop of lines 167-168 with fuel
`Nat.ceil ((lt - last) / est)`, which bounds its iteration count (proved in
`extend_bars_guard_false`).  For `est ≤ 0` with the guard true the Python
loop diverges; the `0 < est` test makes the model total there. -/
def extend_bars (l : List ℚ) (est lt : ℚ) : List ℚ :=
  if 0 < est then extend_bars_fuel est lt (Nat.ceil ((lt - l.getLastD 0) / est)) l
  else l

/-- The bar-length estimate used by `format_chart`, with
`bar_len = (60.0 / bpm) * beats_per_bar` (lines 133, 161-166). -/
def chart_est (beat_times : List ℚ) (bpm : ℚ) (bpb : ℕ) : ℚ :=
  bar_len_est beat_times bpb (60 / bpm * bpb)

/-- The final bar-start list of `format_chart` (lines 147-168): group
beats, drop trailing bars past the song end, extend with the estimated bar
length until the song is covered. -/
def chart_bar_starts (lyrics : List LyricSeg) (chords : List ChordEvt)
    (beat_times : List ℚ) (bpm : ℚ) (bpb : ℕ) : List ℚ :=
  extend_bars (pop_trailing (bar_starts_init beat_times bpb) (last_time lyrics chords beat_times))
    (chart_est beat_times bpm bpb) (last_time lyrics chords beat_times)

/-- Loop `idx = 0; while idx + 1 < len(bar_starts) and
bar_starts[idx + 1] <= s + grace: idx += 1` (lines 176-178), walking the
suffix of `bar_starts` that begins at `idx`. -/
def lyric_bar_idx_aux (g : ℚ) : List ℚ → ℕ → ℕ
  | _ :: b1 :: rest, idx =>
    if b1 ≤ g then lyric_bar_idx_aux g (b1 :: rest) (idx + 1) else idx
  | _, idx => idx

/-- Bar index assigned to a lyric start `s` with the `grace = 0.25`
shift (lines 173-178). -/
def lyric_bar_idx (bar_starts : List ℚ) (s : ℚ) : ℕ :=
  lyric_bar_idx_aux (s + 1 / 4) bar_starts 0

/-- `lyrics_by_bar` (lines 174-179): the texts of the lyric segments
assigned to a bar, in input order. -/
def lyrics_in_bar (bar_starts : List ℚ) (lyrics : List LyricSeg) (bar : ℕ) :
    List String :=
  (lyrics.filter (fun l => decide (lyric_bar_idx bar_starts l.1 = bar))).map
    (fun l => l.2.2.1)

/-- Python truthiness of `carry_over` (an `Option`al string): `None` and
`""` are falsy (line 211). -/
def py_truthy : Option String → Bool
  | none => false
  | some s => !(s == "")

/-- Loop `while j < len(chords) and chords[j][1] < bar_end` of lines
201-208.  The running index `chord_idx`/`j` is represented by the
remaining suffix of the chord list, and `chords[chord_idx - 1]` by `prev`,
the most recently consumed chord.  Returns the grown label list, the
remaining suffix, and the new `prev`. -/
def scan_new_chords (bar_end : ℚ) :
    List ChordEvt → Option ChordEvt → List String →
    List String × List ChordEvt × Option ChordEvt
  | [], prev, acc => (acc, [], prev)
  | c :: rest, prev, acc =>
    if c.2.1 < bar_end then
      scan_new_chords bar_end rest (some c)
        (if (acc = [] ∨ c.1 ≠ acc.getLastD "") ∧ acc.length < 1 + MAX_CHANGES_PER_BAR
         then acc ++ [c.1] else acc)
    else (acc, c :: rest, prev)

/-- The bar intervals iterated by the main loop (lines 184-186): bar `i`
spans `[bar_starts[i], bar_starts[i+1])`, the final bar ends at
`bar_starts[-1] + bar_len_est`. -/
def bar_intervals (bar_starts : List ℚ) (est : ℚ) : List (ℚ × ℚ) :=
  bar_starts.zip (bar_starts.tail ++ [bar_starts.getLastD 0 + est])

/-- Main loop of `format_chart` (lines 184-216), one step per bar:
carry-over detection (lines 195-198), capped scan of new chords
(lines 201-208), carry-over suppression (lines 210-212), lyric merge
(line 189).  Produces the per-bar pair `(chord labels, merged lyric)`. -/
def chart_bars_go (lyricsFor : ℕ → List String) :
    List (ℚ × ℚ) → ℕ → List ChordEvt → Option ChordEvt →
    List (List String × String)
  | [], _, _, _ => []
  | (bs, be) :: rest, bar, rem, prev =>
    let carry : Option String := match prev with
      | some p => if p.2.1 < bs then some p.1 else none
      | none => none
    let acc0 : List String := match carry with
      | some n => [n]
      | none => []
    let scanned := scan_new_chords be rem prev acc0
    let acc2 := if py_truthy carry && (scanned.1.length == 1) then [] else scanned.1
    (acc2, strip (joinSep " " (lyricsFor bar))) ::
      chart_bars_go lyricsFor rest (bar + 1) scanned.2.1 scanned.2.2

/-- The per-bar content of `format_chart` for the given inputs. -/
def chart_bars (lyrics : List LyricSeg) (chords : List ChordEvt)
    (beat_times : List ℚ) (bpm : ℚ) (bpb : ℕ) : List (List String × String) :=
  chart_bars_go (lyrics_in_bar (chart_bar_starts lyrics chords beat_times bpm bpb) lyrics)
    (bar_intervals (chart_bar_starts lyrics chords beat_times bpm bpb)
      (chart_est beat_times bpm bpb))
    0 chords none

/-- `line = f"{chord_text}\t{merged_lyric}".rstrip()` with
`chord_text = " ".join(chords_in_bar)` (lines 214-215). -/
def render_line (bar : List String × String) : String :=
  rstrip (joinSep " " bar.1 ++ "\t" ++ bar.2)

/-- The chart lines of `format_chart`: one rendered line per bar. -/
def format_chart_lines (lyrics : List LyricSeg) (chords : List ChordEvt)
    (beat_times : List ℚ) (bpm : ℚ) (bpb : ℕ) : List String :=
  (chart_bars lyrics chords beat_times bpm bpb).map render_line

/-- `format_chart` (`src/ultimate_chord_reader.py`, lines 110-218): the
header block of lines 136-145 followed by the chart lines, joined with
newlines (line 218). -/
def format_chart (title : String) (bpm : ℚ) (key time_sig : String)
    (lyrics : List LyricSeg) (chords : List ChordEvt) (beat_times : List ℚ)
    (confidence : ℚ) : String :=
  joinSep "\n"
    ([rstrip DISCLAIMER, "",
      "Title: " ++ title,
      "BPM: " ++ fmtFix1 bpm,
      "Key: " ++ key,
      "Time Signature: " ++ time_sig,
      "Lyric Transcription Confidence: " ++ fmtFix1 confidence ++ "%",
      ""] ++ format_chart_lines lyrics chords beat_times bpm (beats_per_bar time_sig))

/-!  ## Lemmas about octave folding  -/

/-- With fuel at least `b`, the halving loop drives the value to `≤ 160`:
the fuel `Nat.ceil b` used by `fold_down` therefore suffices. -/
theorem fold_down_fuel_le (fuel : ℕ) :
    ∀ b : ℚ, b ≤ (fuel : ℚ) → fold_down_fuel fuel b ≤ 160 := by
  induction fuel with
  | zero =>
    intro b hb
    simp only [fold_down_fuel]
    exact le_trans hb (by norm_num)
  | succ n ih =>
    intro b hb
    by_cases h : 160 < b
    · simp only [fold_down_fuel, if_pos h]
      apply ih
      push_cast at hb ⊢
      linarith
    · simp only [fold_down_fuel, if_neg h]
      linarith [not_lt.mp h]

/-- The halving loop preserves the lower bound `80 <`. -/
theorem fold_down_fuel_gt80 (fuel : ℕ) :
    ∀ b : ℚ, 80 < b → 80 < fold_down_fuel fuel b := by
  induction fuel with
  | zero => intro b hb; simpa only [fold_down_fuel] using hb
  | succ n ih =>
    intro b hb
    by_cases h : 160 < b
    · simp only [fold_down_fuel, if_pos h]
      exact ih _ (by linarith)
    · simpa only [fold_down_fuel, if_neg h] using hb

/-- A value already `≤ 160` is left unchanged by the halving loop,
whatever the fuel. -/
theorem fold_down_fuel_id (fuel : ℕ) (b : ℚ) (hb : b ≤ 160) :
    fold_down_fuel fuel b = b := by
  cases fuel with
  | zero => rfl
  | succ n => simp only [fold_down_fuel, if_neg (not_lt.mpr hb)]

/-- With fuel `fuel` satisfying `60 / b ≤ fuel + 1`, the doubling loop
reaches `60 ≤`: the fuel `Nat.ceil (60 / b)` used by `fold_up` therefore
suffices for every positive `b`. -/
theorem fold_up_fuel_ge (fuel : ℕ) :
    ∀ b : ℚ, 0 < b → 60 / b ≤ (fuel : ℚ) + 1 → 60 ≤ fold_up_fuel fuel b := by
  induction fuel with
  | zero =>
    intro b hb h
    simp only [fold_up_fuel]
    have h1 : 60 / b ≤ 1 := by
      rw [Nat.cast_zero, zero_add] at h
      exact h
    exact (div_le_one hb).mp h1
  | succ n ih =>
    intro b hb h
    by_cases hlt : b < 60
    · simp only [fold_up_fuel, if_pos hlt]
      apply ih _ (by positivity)
      rw [show b * 2 = 2 * b from mul_comm b 2, ← div_div, div_right_comm]
      push_cast at h ⊢
      generalize 60 / b = x at h ⊢
      linarith
    · simp only [fold_up_fuel, if_neg hlt]
      linarith [not_lt.mp hlt]

/-- The doubling loop preserves the upper bound `≤ 160` (each doubling
starts below `60`, so lands below `120`). -/
theorem fold_up_fuel_le160 (fuel : ℕ) :
    ∀ b : ℚ, b ≤ 160 → fold_up_fuel fuel b ≤ 160 := by
  induction fuel with
  | zero => intro b hb; simpa only [fold_up_fuel] using hb
  | succ n ih =>
    intro b hb
    by_cases h : b < 60
    · simp only [fold_up_fuel, if_pos h]
      exact ih _ (by linarith)
    · simpa only [fold_up_fuel, if_neg h] using hb

/-- A value already `≥ 60` is left unchanged by the doubling loop,
whatever the fuel. -/
theorem fold_up_fuel_id (fuel : ℕ) (b : ℚ) (hb : 60 ≤ b) :
    fold_up_fuel fuel b = b := by
  cases fuel with
  | zero => rfl
  | succ n => simp only [fold_up_fuel, if_neg (not_lt.mpr hb)]

/-- C1.  Octave folding terminates and canonicalizes: for every
`rawBpm > 0`, the halving loop (`while bpm > 160`) followed by the
doubling loop (`while bpm < 60`) yields a BPM in the inclusive range
`[60, 160]`, and an input already in `[60, 160]` is returned unchanged. -/
theorem C1_octave_fold_range (b : ℚ) (hb : 0 < b) :
    (60 ≤ octave_fold b ∧ octave_fold b ≤ 160) ∧
      (60 ≤ b → b ≤ 160 → octave_fold b = b) := by
  constructor
  · by_cases h160 : 160 < b
    · have hle : fold_down b ≤ 160 :=
        fold_down_fuel_le _ b (Nat.le_ceil b)
      have h80 : 80 < fold_down b :=
        fold_down_fuel_gt80 _ b (by linarith)
      have heq : octave_fold b = fold_down b := by
        simp only [octave_fold, fold_up]
        exact fold_up_fuel_id _ _ (by linarith)
      rw [heq]
      exact ⟨by linarith, hle⟩
    · push_neg at h160
      have hfd : fold_down b = b := by
        simp only [fold_down]
        exact fold_down_fuel_id _ _ h160
      by_cases h60 : 60 ≤ b
      · have : octave_fold b = b := by
          simp only [octave_fold, hfd, fold_up]
          exact fold_up_fuel_id _ _ h60
        rw [this]
        exact ⟨h60, h160⟩
      · push_neg at h60
        have hceil : 60 / b ≤ ((Nat.ceil (60 / b) : ℕ) : ℚ) + 1 := by
          have := Nat.le_ceil (60 / b)
          linarith
        have hge : 60 ≤ fold_up b := fold_up_fuel_ge _ b hb hceil
        have hle : fold_up b ≤ 160 := fold_up_fuel_le160 _ b (by linarith)
        simp only [octave_fold, hfd]
        exact ⟨hge, hle⟩
  · intro h1 h2
    have hfd : fold_down b = b := by
      simp only [fold_down]
      exact fold_down_fuel_id _ _ h2
    simp only [octave_fold, hfd, fold_up]
    exact fold_up_fuel_id _ _ h1

/-- Witness for C1 at the concrete input `90`: the hypotheses hold and the
folded value is `90` itself. -/
theorem C1_octave_fold_range_witness :
    (0 : ℚ) < 90 ∧
      ((60 ≤ octave_fold 90 ∧ octave_fold 90 ≤ 160) ∧
        (60 ≤ (90 : ℚ) → (90 : ℚ) ≤ 160 → octave_fold 90 = 90)) ∧
      octave_fold 90 = 90 :=
  ⟨by norm_num, C1_octave_fold_range 90 (by norm_num),
    (C1_octave_fold_range 90 (by norm_num)).2 (by norm_num) (by norm_num)⟩

/-!  ## Lemmas about `get_bpm_from_drums`  -/

/-- The variable-content unreliable-BPM message never coincides with the
fixed insufficiency message (their lengths differ for every inserted
fragment). -/
theorem unreliable_msg_ne (x y : String) :
    "Unreliable BPM (raw " ++ x ++ ", filtered " ++ y ++ ")" ≠ "Too few beats detected" := by
  intro h
  have h2 := congrArg String.length h
  rw [String.length_append, String.length_append, String.length_append,
    String.length_append] at h2
  have e1 : ("Unreliable BPM (raw " : String).length = 20 := by decide
  have e2 : (", filtered " : String).length = 11 := by decide
  have e3 : (")" : String).length = 1 := by decide
  have e4 : ("Too few beats detected" : String).length = 22 := by decide
  rw [e1, e2, e3, e4] at h2
  omega

/-- C5.  Unreliable-tempo rejection: once enough beats are detected
(`4 ≤ beats.length`, so that the insufficiency branch is not taken),
`get_bpm_from_drums` fails — returning an error rather than a BPM —
exactly when (a) fewer than `max(3, half of all inter-beat intervals)`
intervals survive the median filter, or (b) the filtered, octave-folded
BPM lies outside `[0.9, 1.1]` times the detector's own raw estimate.
(For a positive raw estimate, (b) is exactly a relative difference of
more than 10%.) -/
theorem C5_unreliable_tempo (est : ℚ) (beats : List ℚ)
    (h4 : 4 ≤ beats.length) :
    (∃ e, get_bpm_from_drums est beats = .error e) ↔
      (((good_ibi beats).length : ℚ) < max 3 (((ibi_of beats).length : ℚ) / 2) ∨
        ¬ (9 / 10 * est ≤ octave_fold (60 / median (good_ibi beats)) ∧
            octave_fold (60 / median (good_ibi beats)) ≤ 11 / 10 * est)) := by
  have hn4 : ¬ beats.length < 4 := not_lt.mpr h4
  unfold get_bpm_from_drums
  rw [if_neg hn4]
  by_cases hA : ((good_ibi beats).length : ℚ) < max 3 (((ibi_of beats).length : ℚ) / 2)
  · rw [if_pos hA]
    simp [hA]
  · rw [if_neg hA]
    by_cases hB : ¬ (9 / 10 * est ≤ octave_fold (60 / median (good_ibi beats)) ∧
        octave_fold (60 / median (good_ibi beats)) ≤ 11 / 10 * est)
    · rw [if_pos hB]
      simp [hA, hB]
    · rw [if_neg hB]
      simp [hA, hB]

/-- Witness for C5 at the concrete input `est = 60`,
`beats = [0, 1, 2, 3]`: the length hypothesis holds and the equivalence is
obtained from the theorem. -/
theorem C5_unreliable_tempo_witness :
    4 ≤ ([0, 1, 2, 3] : List ℚ).length ∧
      ((∃ e, get_bpm_from_drums 60 [0, 1, 2, 3] = .error e) ↔
        (((good_ibi [0, 1, 2, 3]).length : ℚ) <
            max 3 (((ibi_of [0, 1, 2, 3]).length : ℚ) / 2) ∨
          ¬ (9 / 10 * 60 ≤ octave_fold (60 / median (good_ibi [0, 1, 2, 3])) ∧
              octave_fold (60 / median (good_ibi [0, 1, 2, 3])) ≤ 11 / 10 * 60))) :=
  ⟨by norm_num, C5_unreliable_tempo 60 [0, 1, 2, 3] (by norm_num)⟩

/-- Counterexample to C6 as stated: with three detected beats — at least
the claimed two — `get_bpm_from_drums` still fails for insufficiency,
because the code's threshold (`src/bpm_drums.py`, line 90) is `< 4`,
not `< 2`. -/
theorem C6_insufficient_beats_counterexample :
    get_bpm_from_drums 60 [0, 1, 2] = .error "Too few beats detected" ∧
      2 ≤ ([0, 1, 2] : List ℚ).length := by
  constructor
  · unfold get_bpm_from_drums
    norm_num
  · norm_num

/-- C6 (amended).  Insufficient-beats threshold: `get_bpm_from_drums`
fails with the insufficiency error exactly when fewer than **4** beats are
detected; with at least 4 beats it never fails for insufficiency (it may
still fail the consistency checks), and on success the returned beat grid
has at least 4 — in particular at least 2 — timestamps. -/
theorem C6_insufficient_beats_amended (est : ℚ) (beats : List ℚ) :
    (get_bpm_from_drums est beats = .error "Too few beats detected" ↔
      beats.length < 4) ∧
      (∀ bpm bts, get_bpm_from_drums est beats = .ok (bpm, bts) →
        2 ≤ bts.length) := by
  constructor
  · constructor
    · intro h
      by_contra hn
      unfold get_bpm_from_drums at h
      rw [if_neg hn] at h
      by_cases hA : ((good_ibi beats).length : ℚ) <
          max 3 (((ibi_of beats).length : ℚ) / 2)
      · rw [if_pos hA] at h
        have := Except.error.inj h
        exact absurd this (by decide)
      · rw [if_neg hA] at h
        by_cases hB : ¬ (9 / 10 * est ≤ octave_fold (60 / median (good_ibi beats)) ∧
            octave_fold (60 / median (good_ibi beats)) ≤ 11 / 10 * est)
        · rw [if_pos hB] at h
          exact unreliable_msg_ne _ _ (Except.error.inj h)
        · rw [if_neg hB] at h
          exact Except.noConfusion h
    · intro h
      unfold get_bpm_from_drums
      rw [if_pos h]
  · intro bpm bts h
    unfold get_bpm_from_drums at h
    by_cases h4 : beats.length < 4
    · rw [if_pos h4] at h
      exact Except.noConfusion h
    · rw [if_neg h4] at h
      by_cases hA : ((good_ibi beats).length : ℚ) <
          max 3 (((ibi_of beats).length : ℚ) / 2)
      · rw [if_pos hA] at h
        exact Except.noConfusion h
      · rw [if_neg hA] at h
        by_cases hB : ¬ (9 / 10 * est ≤ octave_fold (60 / median (good_ibi beats)) ∧
            octave_fold (60 / median (good_ibi beats)) ≤ 11 / 10 * est)
        · rw [if_pos hB] at h
          exact Except.noConfusion h
        · rw [if_neg hB] at h
          have hbts : beats = bts := (Prod.mk.inj (Except.ok.inj h)).2
          rw [← hbts]
          omega

/-- Concrete evaluation: the inter-beat intervals of `[0, 1, 2, 3]`. -/
theorem ibi_of_example : ibi_of [0, 1, 2, 3] = [1, 1, 1] := by
  norm_num [ibi_of, List.zipWith]

/-- Concrete evaluation: the median of three equal intervals. -/
theorem median_ones : median [1, 1, 1] = 1 := by
  norm_num [median, sortQ, insertSorted]

/-- Concrete evaluation: all three intervals survive the 30% filter. -/
theorem good_ibi_example : good_ibi [0, 1, 2, 3] = [1, 1, 1] := by
  rw [good_ibi, ibi_of_example, median_ones]
  norm_num [List.filter]

/-- Concrete evaluation: folding the example BPM `60` is the identity. -/
theorem octave_fold_example :
    octave_fold (60 / median (good_ibi [0, 1, 2, 3])) = 60 := by
  rw [good_ibi_example, median_ones,
    show (60 : ℚ) / 1 = 60 from by norm_num, octave_fold]
  rw [show fold_down (60 : ℚ) = 60 from by
    simp only [fold_down]; exact fold_down_fuel_id _ _ (by norm_num)]
  simp only [fold_up]
  exact fold_up_fuel_id _ _ (by norm_num)

/-- Concrete evaluation: on the clean four-beat grid with agreeing raw
estimate, `get_bpm_from_drums` succeeds with BPM `60`. -/
theorem get_bpm_ok_example :
    get_bpm_from_drums 60 [0, 1, 2, 3] = .ok (60, [0, 1, 2, 3]) := by
  unfold get_bpm_from_drums
  rw [if_neg (by norm_num : ¬ ([0, 1, 2, 3] : List ℚ).length < 4)]
  have hA : ¬ (((good_ibi [0, 1, 2, 3]).length : ℚ) <
      max 3 (((ibi_of [0, 1, 2, 3]).length : ℚ) / 2)) := by
    rw [good_ibi_example, ibi_of_example]
    norm_num
  rw [if_neg hA]
  have hB : ¬ ¬ (9 / 10 * 60 ≤ octave_fold (60 / median (good_ibi [0, 1, 2, 3])) ∧
      octave_fold (60 / median (good_ibi [0, 1, 2, 3])) ≤ 11 / 10 * 60) := by
    rw [octave_fold_example]
    norm_num
  rw [if_neg hB, octave_fold_example]

/-- Witness for the amended C6 at `est = 60`, `beats = [0, 1, 2, 3]`:
the insufficiency equivalence instantiated, and the success-grid bound
discharged at the concrete successful run. -/
theorem C6_insufficient_beats_amended_witness :
    (get_bpm_from_drums 60 [0, 1, 2, 3] = .error "Too few beats detected" ↔
      ([0, 1, 2, 3] : List ℚ).length < 4) ∧
      2 ≤ ([0, 1, 2, 3] : List ℚ).length :=
  ⟨(C6_insufficient_beats_amended 60 [0, 1, 2, 3]).1,
    (C6_insufficient_beats_amended 60 [0, 1, 2, 3]).2 60 [0, 1, 2, 3]
      get_bpm_ok_example⟩

/-!  ## Structural lemmas about the chart assembly  -/

/-- If the loop guard of lines 167-168 fails at entry, any amount of fuel
returns the list unchanged. -/
theorem extend_bars_fuel_noop (est lt : ℚ) (l : List ℚ)
    (h : ¬ (l.getLastD 0 + est < lt)) :
    ∀ fuel, extend_bars_fuel est lt fuel l = l := by
  intro fuel
  cases fuel with
  | zero => rfl
  | succ n => simp only [extend_bars_fuel, if_neg h]

/-- If the loop guard of lines 167-168 fails at entry, `extend_bars`
returns the list unchanged. -/
theorem extend_bars_noop (l : List ℚ) (est lt : ℚ)
    (h : ¬ (l.getLastD 0 + est < lt)) :
    extend_bars l est lt = l := by
  unfold extend_bars
  by_cases hp : 0 < est
  · rw [if_pos hp]
    exact extend_bars_fuel_noop est lt l h _
  · rw [if_neg hp]

/-- Extension appends at the back, so it preserves the head. -/
theorem extend_bars_fuel_head (est lt : ℚ) :
    ∀ (fuel : ℕ) (l : List ℚ), l ≠ [] →
      (extend_bars_fuel est lt fuel l).head? = l.head? := by
  intro fuel
  induction fuel with
  | zero => intro l _; rfl
  | succ n ih =>
    intro l hl
    by_cases h : l.getLastD 0 + est < lt
    · simp only [extend_bars_fuel, if_pos h]
      rw [ih _ (by simp), List.head?_append_of_ne_nil _ hl]
    · simp only [extend_bars_fuel, if_neg h]

/-- Extension never empties the list. -/
theorem extend_bars_fuel_ne_nil (est lt : ℚ) :
    ∀ (fuel : ℕ) (l : List ℚ), l ≠ [] → extend_bars_fuel est lt fuel l ≠ [] := by
  intro fuel
  induction fuel with
  | zero => intro l hl; exact hl
  | succ n ih =>
    intro l hl
    by_cases h : l.getLastD 0 + est < lt
    · simp only [extend_bars_fuel, if_pos h]
      exact ih _ (by simp)
    · simp only [extend_bars_fuel, if_neg h]
      exact hl

/-- Every appended bar start is the previous one plus `est`, so extension
preserves the arithmetic-progression property. -/
theorem extend_bars_fuel_chain (est lt : ℚ) :
    ∀ (fuel : ℕ) (l : List ℚ), l ≠ [] →
      List.Chain' (fun a b => b = a + est) l →
      List.Chain' (fun a b => b = a + est) (extend_bars_fuel est lt fuel l) := by
  intro fuel
  induction fuel with
  | zero => intro l _ hc; exact hc
  | succ n ih =>
    intro l hl hc
    by_cases h : l.getLastD 0 + est < lt
    · simp only [extend_bars_fuel, if_pos h]
      apply ih _ (by simp)
      rw [List.chain'_append]
      refine ⟨hc, List.chain'_singleton _, ?_⟩
      intro x hx y hy
      rw [List.head?_cons, Option.mem_some_iff] at hy
      rw [List.getLastD_eq_getLast? 0 l] at *
      cases hgl : l.getLast? with
      | none => rw [hgl] at hx; exact absurd hx (by simp)
      | some a =>
        rw [hgl, Option.mem_some_iff] at hx
        rw [← hy, ← hx]
        rw [hgl]
        rfl
    · simp only [extend_bars_fuel, if_neg h]
      exact hc

/-- The initial bar-start list of line 156 is never empty: the empty beat
grid yields `[0.0]`, and a nonempty grid keeps index `0`. -/
theorem bar_starts_init_ne_nil (beat_times : List ℚ) (bpb : ℕ) :
    bar_starts_init beat_times bpb ≠ [] := by
  unfold bar_starts_init
  by_cases h : beat_times.isEmpty
  · rw [if_pos h]; simp
  · rw [if_neg h]
    have h0 : 0 ∈ (List.range beat_times.length).filter (fun i => decide (i % bpb = 0)) := by
      rw [List.mem_filter]
      constructor
      · rw [List.mem_range]
        cases beat_times with
        | nil => simp at h
        | cons a t => simp
      · simp
    intro hnil
    rw [List.map_eq_nil_iff] at hnil
    rw [hnil] at h0
    exact absurd h0 (by simp)

/-- The popping loop of lines 158-159 keeps at least one element. -/
theorem pop_trailing_aux_ne_nil (lt : ℚ) :
    ∀ l : List ℚ, l ≠ [] → pop_trailing_aux lt l ≠ [] := by
  intro l
  induction l with
  | nil => intro h; exact absurd rfl h
  | cons x xs ih =>
    intro _
    by_cases h : xs ≠ [] ∧ lt ≤ x
    · simp only [pop_trailing_aux, if_pos h]
      exact ih h.1
    · simp only [pop_trailing_aux, if_neg h]
      simp

/-- `pop_trailing` keeps at least one element. -/
theorem pop_trailing_ne_nil (l : List ℚ) (lt : ℚ) (h : l ≠ []) :
    pop_trailing l lt ≠ [] := by
  unfold pop_trailing
  intro hc
  rw [List.reverse_eq_nil_iff] at hc
  exact pop_trailing_aux_ne_nil lt l.reverse (by simpa using h) hc

/-- The final bar-start list is never empty. -/
theorem chart_bar_starts_ne_nil (lyrics : List LyricSeg) (chords : List ChordEvt)
    (beat_times : List ℚ) (bpm : ℚ) (bpb : ℕ) :
    chart_bar_starts lyrics chords beat_times bpm bpb ≠ [] := by
  unfold chart_bar_starts extend_bars
  by_cases hp : 0 < chart_est beat_times bpm bpb
  · rw [if_pos hp]
    exact extend_bars_fuel_ne_nil _ _ _ _
      (pop_trailing_ne_nil _ _ (bar_starts_init_ne_nil beat_times bpb))
  · rw [if_neg hp]
    exact pop_trailing_ne_nil _ _ (bar_starts_init_ne_nil beat_times bpb)

/-- There are exactly as many bar intervals as bar starts. -/
theorem bar_intervals_length (bar_starts : List ℚ) (est : ℚ) :
    (bar_intervals bar_starts est).length = bar_starts.length := by
  unfold bar_intervals
  rw [List.length_zip]
  cases bar_starts with
  | nil => simp
  | cons a t => simp

/-- The main loop emits exactly one line per bar interval. -/
theorem chart_bars_go_length (f : ℕ → List String) :
    ∀ (L : List (ℚ × ℚ)) (i : ℕ) (rem : List ChordEvt) (prev : Option ChordEvt),
      (chart_bars_go f L i rem prev).length = L.length := by
  intro L
  induction L with
  | nil => intro i rem prev; rfl
  | cons hd rest ih =>
    intro i rem prev
    obtain ⟨bs, be⟩ := hd
    simp only [chart_bars_go, List.length_cons]
    rw [ih]

/-- The per-bar list has exactly one entry per bar start. -/
theorem chart_bars_length (lyrics : List LyricSeg) (chords : List ChordEvt)
    (beat_times : List ℚ) (bpm : ℚ) (bpb : ℕ) :
    (chart_bars lyrics chords beat_times bpm bpb).length =
      (chart_bar_starts lyrics chords beat_times bpm bpb).length := by
  unfold chart_bars
  rw [chart_bars_go_length, bar_intervals_length]

/-- `getD` after `map`, for an index inside the list. -/
theorem getD_map {α β : Type} (f : α → β) :
    ∀ (l : List α) (n : ℕ) (d : α) (d' : β), n < l.length →
      (l.map f).getD n d' = f (l.getD n d) := by
  intro l
  induction l with
  | nil => intro n d d' h; simp at h
  | cons x xs ih =>
    intro n d d' h
    cases n with
    | zero => simp
    | succ m =>
      simp only [List.map_cons, List.getD_cons_succ]
      exact ih m d d' (by simpa using h)

/-- The lyric column of bar `j` is the space-joined, stripped text list
supplied for bar `i + j` (lines 189, 214). -/
theorem chart_bars_go_snd (f : ℕ → List String) :
    ∀ (L : List (ℚ × ℚ)) (i : ℕ) (rem : List ChordEvt) (prev : Option ChordEvt)
      (j : ℕ), j < L.length →
      ((chart_bars_go f L i rem prev).getD j ([], "")).2 =
        strip (joinSep " " (f (i + j))) := by
  intro L
  induction L with
  | nil => intro i rem prev j h; simp at h
  | cons hd rest ih =>
    intro i rem prev j h
    obtain ⟨bs, be⟩ := hd
    cases j with
    | zero => simp [chart_bars_go]
    | succ n =>
      simp only [chart_bars_go, List.getD_cons_succ]
      rw [ih _ _ _ n (by simpa using h)]
      rw [show i + 1 + n = i + (n + 1) from by omega]

/-- C3.  Bar count invariant: for every input, the number of chart lines
equals the number of bars derived from the beat grid (the final bar-start
list), in bar order; and a bar with neither chord labels nor lyric text
still contributes a line — the empty line. -/
theorem C3_bar_count_invariant :
    ∀ (lyrics : List LyricSeg) (chords : List ChordEvt) (beat_times : List ℚ)
      (bpm : ℚ) (bpb : ℕ),
      (format_chart_lines lyrics chords beat_times bpm bpb).length =
        (chart_bar_starts lyrics chords beat_times bpm bpb).length ∧
      ∀ b, b < (chart_bar_starts lyrics chords beat_times bpm bpb).length →
        (chart_bars lyrics chords beat_times bpm bpb).getD b ([], "") = ([], "") →
        (format_chart_lines lyrics chords beat_times bpm bpb).getD b "?" = "" := by
  intro lyrics chords beat_times bpm bpb
  constructor
  · unfold format_chart_lines
    rw [List.length_map, chart_bars_length]
  · intro b hb hempty
    unfold format_chart_lines
    rw [getD_map render_line _ b ([], "") "?"
      (by rw [chart_bars_length]; exact hb)]
    rw [hempty]
    decide

/-- Concrete evaluation for the C3 witness: five beats, no events — the
trailing bar at beat `4` is dropped (it starts at the song end), leaving
the single bar `[0]`. -/
theorem c3w_bar_starts : chart_bar_starts [] [] [0, 1, 2, 3, 4] 60 4 = [0] := by
  have hlt : last_time [] [] [0, 1, 2, 3, 4] = 4 := by
    norm_num [last_time, last_time_lyrics, List.getLast?]
  have hbs0 : bar_starts_init [0, 1, 2, 3, 4] 4 = [0, 4] := by decide
  have hpop : pop_trailing [0, 4] 4 = [0] := by decide
  have hest : chart_est [0, 1, 2, 3, 4] 60 4 = 4 := by
    norm_num [chart_est, bar_len_est, median, sortQ, insertSorted, List.zipWith]
  unfold chart_bar_starts
  rw [hlt, hbs0, hpop, hest]
  exact extend_bars_noop _ _ _ (by norm_num [List.getLastD])

/-- Concrete evaluation for the C3 witness: the single bar holds neither
chord labels nor lyric text. -/
theorem c3w_bars : chart_bars [] [] [0, 1, 2, 3, 4] 60 4 = [([], "")] := by
  have hest : chart_est [0, 1, 2, 3, 4] 60 4 = 4 := by
    norm_num [chart_est, bar_len_est, median, sortQ, insertSorted, List.zipWith]
  unfold chart_bars
  rw [c3w_bar_starts, hest]
  have hint : bar_intervals [0] 4 = [(0, 4)] := by
    norm_num [bar_intervals, List.getLastD]
  rw [hint]
  have hs : strip (joinSep " " []) = "" := by decide
  simp [chart_bars_go, scan_new_chords, py_truthy, lyrics_in_bar, List.filter, hs]

/-- Witness for C3 at five beats and no events: one bar, one line, and the
empty bar renders as the empty line. -/
theorem C3_bar_count_invariant_witness :
    (format_chart_lines [] [] [0, 1, 2, 3, 4] 60 4).length =
        (chart_bar_starts [] [] [0, 1, 2, 3, 4] 60 4).length ∧
      (format_chart_lines [] [] [0, 1, 2, 3, 4] 60 4).getD 0 "?" = "" :=
  ⟨(C3_bar_count_invariant [] [] [0, 1, 2, 3, 4] 60 4).1,
    (C3_bar_count_invariant [] [] [0, 1, 2, 3, 4] 60 4).2 0
      (by rw [c3w_bar_starts]; norm_num)
      (by rw [c3w_bars]; rfl)⟩

/-- C2.  Carry-over suppression: for beats `[0 … 8]` with 4 beats per bar,
chords `[("C", 0, 0.9)]` and lyrics `[(0, 1, "foo", 0.9), (5, 6, "bar", 0.9)]`,
the chart has exactly the two lines `"C\tfoo"` and `"\tbar"`: the `"C"`
sounding into the second bar is a pure carry-over (no new onset in that
bar) and is hidden. -/
theorem C2_carryover_suppression :
    format_chart_lines [(0, 1, "foo", 9 / 10), (5, 6, "bar", 9 / 10)]
      [("C", 0, 9 / 10)] [0, 1, 2, 3, 4, 5, 6, 7, 8] 60 4 =
      ["C\tfoo", "\tbar"] := by
  have hlt : last_time [(0, 1, "foo", 9 / 10), (5, 6, "bar", 9 / 10)]
      [("C", 0, 9 / 10)] [0, 1, 2, 3, 4, 5, 6, 7, 8] = 8 := by
    norm_num [last_time, last_time_lyrics, List.getLast?]
  have hbs0 : bar_starts_init [0, 1, 2, 3, 4, 5, 6, 7, 8] 4 = [0, 4, 8] := by decide
  have hpop : pop_trailing [0, 4, 8] 8 = [0, 4] := by decide
  have hest : chart_est [0, 1, 2, 3, 4, 5, 6, 7, 8] 60 4 = 4 := by
    norm_num [chart_est, bar_len_est, median, sortQ, insertSorted, List.zipWith]
  have hbs : chart_bar_starts [(0, 1, "foo", 9 / 10), (5, 6, "bar", 9 / 10)]
      [("C", 0, 9 / 10)] [0, 1, 2, 3, 4, 5, 6, 7, 8] 60 4 = [0, 4] := by
    unfold chart_bar_starts
    rw [hlt, hbs0, hpop, hest]
    exact extend_bars_noop _ _ _ (by norm_num [List.getLastD])
  have hint : bar_intervals [0, 4] 4 = [(0, 4), (4, 8)] := by
    norm_num [bar_intervals, List.getLastD]
  have hidx0 : lyric_bar_idx [0, 4] 0 = 0 := by
    norm_num [lyric_bar_idx, lyric_bar_idx_aux]
  have hidx5 : lyric_bar_idx [0, 4] 5 = 1 := by
    norm_num [lyric_bar_idx, lyric_bar_idx_aux]
  have hly0 : lyrics_in_bar [0, 4] [(0, 1, "foo", 9 / 10), (5, 6, "bar", 9 / 10)] 0 =
      ["foo"] := by
    simp [lyrics_in_bar, List.filter, hidx0, hidx5]
  have hly1 : lyrics_in_bar [0, 4] [(0, 1, "foo", 9 / 10), (5, 6, "bar", 9 / 10)] 1 =
      ["bar"] := by
    simp [lyrics_in_bar, List.filter, hidx0, hidx5]
  have hbars : chart_bars [(0, 1, "foo", 9 / 10), (5, 6, "bar", 9 / 10)]
      [("C", 0, 9 / 10)] [0, 1, 2, 3, 4, 5, 6, 7, 8] 60 4 =
      [(["C"], "foo"), ([], "bar")] := by
    unfold chart_bars
    rw [hbs, hest, hint]
    have hs0 : strip (joinSep " " ["foo"]) = "foo" := by decide
    have hs1 : strip (joinSep " " ["bar"]) = "bar" := by decide
    norm_num [chart_bars_go, scan_new_chords, py_truthy, MAX_CHANGES_PER_BAR,
      hly0, hly1, hs0, hs1, List.getLastD]
    decide
  unfold format_chart_lines
  rw [hbars]
  decide

/-- Concrete evaluation shared by the C4 theorems: a single chord whose
onset `2.11` is `0.11` from its nearest beat is nevertheless assigned to
bar 0 and displayed; the second bar hides it as a pure carry-over. -/
theorem c4_lines :
    format_chart_lines [] [("C", 211 / 100, 9 / 10)] [0, 1, 2, 3, 4, 5, 6, 7, 8]
      60 4 = ["C", ""] := by
  have hlt : last_time [] [("C", 211 / 100, 9 / 10)] [0, 1, 2, 3, 4, 5, 6, 7, 8] = 8 := by
    norm_num [last_time, last_time_lyrics, List.getLast?]
  have hbs0 : bar_starts_init [0, 1, 2, 3, 4, 5, 6, 7, 8] 4 = [0, 4, 8] := by decide
  have hpop : pop_trailing [0, 4, 8] 8 = [0, 4] := by decide
  have hest : chart_est [0, 1, 2, 3, 4, 5, 6, 7, 8] 60 4 = 4 := by
    norm_num [chart_est, bar_len_est, median, sortQ, insertSorted, List.zipWith]
  have hbs : chart_bar_starts [] [("C", 211 / 100, 9 / 10)]
      [0, 1, 2, 3, 4, 5, 6, 7, 8] 60 4 = [0, 4] := by
    unfold chart_bar_starts
    rw [hlt, hbs0, hpop, hest]
    exact extend_bars_noop _ _ _ (by norm_num [List.getLastD])
  have hint : bar_intervals [0, 4] 4 = [(0, 4), (4, 8)] := by
    norm_num [bar_intervals, List.getLastD]
  have hbars : chart_bars [] [("C", 211 / 100, 9 / 10)]
      [0, 1, 2, 3, 4, 5, 6, 7, 8] 60 4 = [(["C"], ""), ([], "")] := by
    unfold chart_bars
    rw [hbs, hest, hint]
    have hs : strip (joinSep " " []) = "" := by decide
    norm_num [chart_bars_go, scan_new_chords, py_truthy, MAX_CHANGES_PER_BAR,
      lyrics_in_bar, List.filter, hs, List.getLastD]
    decide
  unfold format_chart_lines
  rw [hbars]
  decide

/-- Counterexample to C4 as stated: the chord onset `2.11` is farther than
`0.10` from every beat of `[0 … 8]`, yet its label `"C"` is the first
chart line — `format_chart` applies no nearest-beat tolerance and drops
nothing (`src/ultimate_chord_reader.py`, lines 192-212). -/
theorem C4_tolerance_counterexample :
    (([0, 1, 2, 3, 4, 5, 6, 7, 8] : List ℚ).all fun b =>
        decide ((1 : ℚ) / 10 < |211 / 100 - b|)) = true ∧
      (format_chart_lines [] [("C", 211 / 100, 9 / 10)] [0, 1, 2, 3, 4, 5, 6, 7, 8]
        60 4).getD 0 "" = "C" := by
  constructor
  · rw [List.all_eq_true]
    intro b hb
    rw [decide_eq_true_eq]
    fin_cases hb <;> norm_num [lt_abs]
  · rw [c4_lines]
    rfl

/-- C4 (amended).  Chord onsets are assigned to bars by the running scan
against bar boundaries (an onset is consumed by the first remaining bar
whose end exceeds it); no beat-distance tolerance exists, so an onset
farther than `0.10` from every beat — here `2.11`, at distance `0.11` — is
still assigned and displayed, and the full chart for this input is the
line `"C"` followed by an empty line. -/
theorem C4_tolerance_amended :
    (∀ b ∈ ([0, 1, 2, 3, 4, 5, 6, 7, 8] : List ℚ), 1 / 10 < |211 / 100 - b|) ∧
      format_chart_lines [] [("C", 211 / 100, 9 / 10)] [0, 1, 2, 3, 4, 5, 6, 7, 8]
        60 4 = ["C", ""] := by
  constructor
  · intro b hb
    fin_cases hb <;> norm_num [lt_abs]
  · exact c4_lines

/-- Witness for the amended C4 at the beat `2` nearest the onset: the
onset is more than `0.10` away, and the chart still displays the label. -/
theorem C4_tolerance_amended_witness :
    (1 : ℚ) / 10 < |211 / 100 - 2| ∧
      format_chart_lines [] [("C", 211 / 100, 9 / 10)] [0, 1, 2, 3, 4, 5, 6, 7, 8]
        60 4 = ["C", ""] :=
  ⟨C4_tolerance_amended.1 2 (by norm_num), C4_tolerance_amended.2⟩

/-- The capped scan (lines 201-208) never grows the label list beyond
`1 + MAX_CHANGES_PER_BAR`: it only appends under the explicit
`len(chords_in_bar) < 1 + MAX_CHANGES_PER_BAR` test. -/
theorem scan_new_chords_len_le (be : ℚ) :
    ∀ (cl : List ChordEvt) (prev : Option ChordEvt) (acc : List String),
      acc.length ≤ 1 + MAX_CHANGES_PER_BAR →
      (scan_new_chords be cl prev acc).1.length ≤ 1 + MAX_CHANGES_PER_BAR := by
  intro cl
  induction cl with
  | nil => intro prev acc h; simpa [scan_new_chords] using h
  | cons c rest ih =>
    intro prev acc h
    by_cases hc : c.2.1 < be
    · simp only [scan_new_chords, if_pos hc]
      apply ih
      by_cases hg : (acc = [] ∨ c.1 ≠ acc.getLastD "") ∧
          acc.length < 1 + MAX_CHANGES_PER_BAR
      · rw [if_pos hg]
        rw [List.length_append, List.length_singleton]
        omega
      · rw [if_neg hg]
        exact h
    · simp only [scan_new_chords, if_neg hc]
      exact h

/-- The per-bar label list starts from the carry-over (at most one label)
and grows only through the capped scan, so it never exceeds
`1 + MAX_CHANGES_PER_BAR` labels. -/
theorem chart_bars_go_fst_le (f : ℕ → List String) :
    ∀ (L : List (ℚ × ℚ)) (i : ℕ) (rem : List ChordEvt) (prev : Option ChordEvt)
      (p : List String × String), p ∈ chart_bars_go f L i rem prev →
      p.1.length ≤ 1 + MAX_CHANGES_PER_BAR := by
  intro L
  induction L with
  | nil => intro i rem prev p hp; simp [chart_bars_go] at hp
  | cons hd rest ih =>
    intro i rem prev p hp
    obtain ⟨bs, be⟩ := hd
    simp only [chart_bars_go, List.mem_cons] at hp
    rcases hp with h | h
    · rw [h]
      split
      · simp [MAX_CHANGES_PER_BAR]
      · apply scan_new_chords_len_le
        cases prev with
        | none => simp [MAX_CHANGES_PER_BAR]
        | some q =>
          by_cases hq : q.2.1 < bs
          · simp [hq, MAX_CHANGES_PER_BAR]
          · simp [hq, MAX_CHANGES_PER_BAR]
    · exact ih _ _ _ _ h

/-- Concrete evaluation shared by C7: chords `B` at `0` and then five
distinct onsets `C D E F G` inside the second bar.  The second bar shows
exactly three labels — the carry-over `B` and the first two new chords. -/
theorem c7_bars :
    chart_bars []
      [("B", 0, 9 / 10), ("C", 4, 9 / 10), ("D", 9 / 2, 9 / 10), ("E", 5, 9 / 10),
        ("F", 11 / 2, 9 / 10), ("G", 6, 9 / 10)]
      [0, 1, 2, 3, 4, 5, 6, 7, 8] 60 4 =
      [(["B"], ""), (["B", "C", "D"], "")] := by
  have hlt : last_time []
      [("B", 0, 9 / 10), ("C", 4, 9 / 10), ("D", 9 / 2, 9 / 10), ("E", 5, 9 / 10),
        ("F", 11 / 2, 9 / 10), ("G", 6, 9 / 10)]
      [0, 1, 2, 3, 4, 5, 6, 7, 8] = 8 := by
    norm_num [last_time, last_time_lyrics, List.getLast?]
  have hbs0 : bar_starts_init [0, 1, 2, 3, 4, 5, 6, 7, 8] 4 = [0, 4, 8] := by decide
  have hpop : pop_trailing [0, 4, 8] 8 = [0, 4] := by decide
  have hest : chart_est [0, 1, 2, 3, 4, 5, 6, 7, 8] 60 4 = 4 := by
    norm_num [chart_est, bar_len_est, median, sortQ, insertSorted, List.zipWith]
  have hbs : chart_bar_starts []
      [("B", 0, 9 / 10), ("C", 4, 9 / 10), ("D", 9 / 2, 9 / 10), ("E", 5, 9 / 10),
        ("F", 11 / 2, 9 / 10), ("G", 6, 9 / 10)]
      [0, 1, 2, 3, 4, 5, 6, 7, 8] 60 4 = [0, 4] := by
    unfold chart_bar_starts
    rw [hlt, hbs0, hpop, hest]
    exact extend_bars_noop _ _ _ (by norm_num [List.getLastD])
  have hint : bar_intervals [0, 4] 4 = [(0, 4), (4, 8)] := by
    norm_num [bar_intervals, List.getLastD]
  unfold chart_bars
  rw [hbs, hest, hint]
  have hs : strip (joinSep " " []) = "" := by decide
  norm_num [chart_bars_go, scan_new_chords, py_truthy, MAX_CHANGES_PER_BAR,
    lyrics_in_bar, List.filter, hs, List.getLastD]
  decide

/-- C7.  Chord display cap: every bar displays at most
`1 + MAX_CHANGES_PER_BAR` labels (with `MAX_CHANGES_PER_BAR = 2`, at most
three: one carry-over plus two new); concretely, a bar containing five
distinct new chord onsets displays exactly the carry-over and the first
two new labels, the later changes being silently dropped. -/
theorem C7_chord_cap :
    (∀ (lyrics : List LyricSeg) (chords : List ChordEvt) (beat_times : List ℚ)
        (bpm : ℚ) (bpb : ℕ) (p : List String × String),
        p ∈ chart_bars lyrics chords beat_times bpm bpb →
        p.1.length ≤ 1 + MAX_CHANGES_PER_BAR) ∧
      (chart_bars []
        [("B", 0, 9 / 10), ("C", 4, 9 / 10), ("D", 9 / 2, 9 / 10), ("E", 5, 9 / 10),
          ("F", 11 / 2, 9 / 10), ("G", 6, 9 / 10)]
        [0, 1, 2, 3, 4, 5, 6, 7, 8] 60 4).getD 1 ([], "") =
        (["B", "C", "D"], "") := by
  constructor
  · intro lyrics chords beat_times bpm bpb p hp
    exact chart_bars_go_fst_le _ _ _ _ _ p hp
  · rw [c7_bars]
    rfl

/-- Witness for C7: the five-onset bar of the concrete run is a member of
the produced chart and satisfies the cap. -/
theorem C7_chord_cap_witness :
    (["B", "C", "D"], "") ∈ chart_bars []
        [("B", 0, 9 / 10), ("C", 4, 9 / 10), ("D", 9 / 2, 9 / 10), ("E", 5, 9 / 10),
          ("F", 11 / 2, 9 / 10), ("G", 6, 9 / 10)]
        [0, 1, 2, 3, 4, 5, 6, 7, 8] 60 4 ∧
      (["B", "C", "D"] : List String).length ≤ 1 + MAX_CHANGES_PER_BAR :=
  ⟨by rw [c7_bars]; simp,
    C7_chord_cap.1 []
      [("B", 0, 9 / 10), ("C", 4, 9 / 10), ("D", 9 / 2, 9 / 10), ("E", 5, 9 / 10),
        ("F", 11 / 2, 9 / 10), ("G", 6, 9 / 10)]
      [0, 1, 2, 3, 4, 5, 6, 7, 8] 60 4 (["B", "C", "D"], "")
      (by rw [c7_bars]; simp)⟩

/-- `extend_bars` preserves the head of a nonempty bar-start list. -/
theorem extend_bars_head (l : List ℚ) (est lt : ℚ) (h : l ≠ []) :
    (extend_bars l est lt).head? = l.head? := by
  unfold extend_bars
  by_cases hp : 0 < est
  · rw [if_pos hp]
    exact extend_bars_fuel_head est lt _ l h
  · rw [if_neg hp]

/-- `extend_bars` preserves the arithmetic-progression property with
step `est`. -/
theorem extend_bars_chain (l : List ℚ) (est lt : ℚ) (h : l ≠ [])
    (hc : List.Chain' (fun a b => b = a + est) l) :
    List.Chain' (fun a b => b = a + est) (extend_bars l est lt) := by
  unfold extend_bars
  by_cases hp : 0 < est
  · rw [if_pos hp]
    exact extend_bars_fuel_chain est lt _ l h hc
  · rw [if_neg hp]
    exact hc

/-- Counterexample to C8 as stated: the one-beat grid `[5]` has fewer than
2 points, yet the single bar starts at `5`, not at time `0` — only the
empty grid is given the synthetic start `0.0`
(`src/ultimate_chord_reader.py`, line 156). -/
theorem C8_degenerate_counterexample :
    ([(5 : ℚ)] : List ℚ).length < 2 ∧
      (chart_bar_starts [] [] [(5 : ℚ)] 120 4).headD 0 = 5 ∧ (5 : ℚ) ≠ 0 := by
  have hlt : last_time [] [] [(5 : ℚ)] = 5 := by
    norm_num [last_time, last_time_lyrics, List.getLast?]
  have hbs0 : bar_starts_init [(5 : ℚ)] 4 = [5] := by decide
  have hpop : pop_trailing [(5 : ℚ)] 5 = [5] := by decide
  have hest : chart_est [(5 : ℚ)] 120 4 = 2 := by
    norm_num [chart_est, bar_len_est]
  have hbs : chart_bar_starts [] [] [(5 : ℚ)] 120 4 = [5] := by
    unfold chart_bar_starts
    rw [hlt, hbs0, hpop, hest]
    exact extend_bars_noop _ _ _ (by norm_num [List.getLastD])
  refine ⟨by norm_num, ?_, by norm_num⟩
  rw [hbs]
  rfl

/-- C8 (amended).  Chart assembly is total and degrades gracefully: every
input yields at least one chart line; if the beat grid has fewer than 2
points the bar length falls back to the uniform
`beatsPerBar × 60 / BPM`; with an empty grid the bars form an arithmetic
progression of that length starting at time `0`, while with exactly one
beat `t` they form the same progression starting at `t` (not at `0`); and
with no beats and no events exactly one synthetic bar with an empty line
is produced. -/
theorem C8_degenerate_amended (lyrics : List LyricSeg) (chords : List ChordEvt)
    (bpm : ℚ) (bpb : ℕ) (hbpm : 0 < bpm) (hbpb : 0 < bpb) :
    (∀ beat_times : List ℚ, beat_times.length < 2 →
        chart_est beat_times bpm bpb = 60 / bpm * bpb) ∧
      (∀ beat_times : List ℚ,
        1 ≤ (format_chart_lines lyrics chords beat_times bpm bpb).length) ∧
      ((chart_bar_starts lyrics chords [] bpm bpb).headD 0 = 0 ∧
        List.Chain' (fun a b => b = a + chart_est [] bpm bpb)
          (chart_bar_starts lyrics chords [] bpm bpb)) ∧
      (∀ t : ℚ, (chart_bar_starts lyrics chords [t] bpm bpb).headD 0 = t ∧
        List.Chain' (fun a b => b = a + chart_est [t] bpm bpb)
          (chart_bar_starts lyrics chords [t] bpm bpb)) ∧
      format_chart_lines [] [] [] bpm bpb = [""] := by
  have hestpos : 0 < 60 / bpm * (bpb : ℚ) :=
    mul_pos (div_pos (by norm_num) hbpm) (by exact_mod_cast hbpb)
  refine ⟨?_, ?_, ?_, ?_, ?_⟩
  · intro bt h
    unfold chart_est bar_len_est
    rw [if_neg (by omega)]
  · intro bt
    unfold format_chart_lines
    rw [List.length_map, chart_bars_length]
    exact List.length_pos.mpr (chart_bar_starts_ne_nil lyrics chords bt bpm bpb)
  · have hbs0 : bar_starts_init [] bpb = [0] := rfl
    have hpop : pop_trailing [0] (last_time lyrics chords []) = [0] := by
      simp [pop_trailing, pop_trailing_aux]
    unfold chart_bar_starts
    rw [hbs0, hpop]
    constructor
    · rw [List.headD_eq_head?, extend_bars_head _ _ _ (by simp)]
      rfl
    · exact extend_bars_chain _ _ _ (by simp) (List.chain'_singleton _)
  · intro t
    have hbs0 : bar_starts_init [t] bpb = [t] := by
      have hr1 : List.range 1 = [0] := by decide
      simp [bar_starts_init, hr1]
    have hpop : pop_trailing [t] (last_time lyrics chords [t]) = [t] := by
      simp [pop_trailing, pop_trailing_aux]
    unfold chart_bar_starts
    rw [hbs0, hpop]
    constructor
    · rw [List.headD_eq_head?, extend_bars_head _ _ _ (by simp)]
      rfl
    · exact extend_bars_chain _ _ _ (by simp) (List.chain'_singleton _)
  · have hlt : last_time [] [] [] = 0 := rfl
    have hbs0 : bar_starts_init [] bpb = [0] := rfl
    have hpop : pop_trailing [0] (0 : ℚ) = [0] := by
      simp [pop_trailing, pop_trailing_aux]
    have hest : chart_est [] bpm bpb = 60 / bpm * bpb := by
      unfold chart_est bar_len_est
      rw [if_neg (by norm_num)]
    have hbs : chart_bar_starts [] [] [] bpm bpb = [0] := by
      unfold chart_bar_starts
      rw [hlt, hbs0, hpop, hest]
      apply extend_bars_noop
      rw [show ([(0 : ℚ)] : List ℚ).getLastD 0 = 0 from rfl, zero_add]
      exact not_lt.mpr (le_of_lt hestpos)
    unfold format_chart_lines chart_bars
    rw [hbs]
    have hint : bar_intervals [0] (chart_est [] bpm bpb) =
        [(0, 0 + chart_est [] bpm bpb)] := by
      simp [bar_intervals, List.getLastD]
    rw [hint]
    have hs : strip (joinSep " " []) = "" := by decide
    have hr : render_line ([], "") = "" := by decide
    simp [chart_bars_go, scan_new_chords, py_truthy, lyrics_in_bar, List.filter,
      hs, hr]

/-- Witness for the amended C8 at `bpm = 120`, `bpb = 4`: the uniform
fallback length for a one-beat grid, the zero start for the empty grid,
and the single empty synthetic line. -/
theorem C8_degenerate_amended_witness :
    chart_est [(3 : ℚ)] 120 4 = 60 / 120 * 4 ∧
      (chart_bar_starts [] [] [] 120 4).headD 0 = 0 ∧
      format_chart_lines [] [] [] 120 4 = [""] :=
  ⟨(C8_degenerate_amended [] [] 120 4 (by norm_num) (by norm_num)).1 [3]
      (by norm_num),
    ((C8_degenerate_amended [] [] 120 4 (by norm_num) (by norm_num)).2.2.1).1,
    (C8_degenerate_amended [] [] 120 4 (by norm_num) (by norm_num)).2.2.2.2⟩

/-- Concrete evaluation for C9: with no beats and no events at BPM `120`,
the chart body is a single empty line. -/
theorem c9_lines_empty : format_chart_lines [] [] [] 120 4 = [""] := by
  have hest : chart_est [] 120 4 = 2 := by
    norm_num [chart_est, bar_len_est]
  have hbs : chart_bar_starts [] [] [] 120 4 = [0] := by
    unfold chart_bar_starts
    rw [show last_time [] [] [] = 0 from rfl,
      show bar_starts_init [] 4 = [0] from rfl,
      show pop_trailing [0] (0 : ℚ) = [0] from by
        simp [pop_trailing, pop_trailing_aux],
      hest]
    exact extend_bars_noop _ _ _ (by norm_num [List.getLastD])
  unfold format_chart_lines chart_bars
  rw [hbs, hest]
  have hint : bar_intervals [0] 2 = [(0, 2)] := by
    norm_num [bar_intervals, List.getLastD]
  rw [hint]
  have hs : strip (joinSep " " []) = "" := by decide
  have hr : render_line ([], "") = "" := by decide
  simp [chart_bars_go, scan_new_chords, py_truthy, lyrics_in_bar, List.filter,
    hs, hr]

/-- Counterexample to C9 as stated: the chart for a no-event input has one
chart line but only 10 newline characters, i.e. 11 printed lines — the
header holds **five** `Label: value` lines (Title, BPM, Key,
Time Signature, Lyric Transcription Confidence), whereas the claimed
layout (disclaimer 3 + blank + six labels + blank + one bar line) would
print 12 lines, i.e. 11 newlines (`src/ultimate_chord_reader.py`,
lines 136-145). -/
theorem C9_layout_counterexample :
    newline_count (format_chart "T" 120 "C" "4/4" [] [] [] 80) = 10 ∧
      (format_chart_lines [] [] [] 120 (beats_per_bar "4/4")).length = 1 := by
  have hb : beats_per_bar "4/4" = 4 := by decide
  have h1 : round_half_even ((120 : ℚ) * 10) = 1200 := by
    unfold round_half_even
    norm_num
  have hf120 : fmtFix1 120 = "120.0" := by
    unfold fmtFix1
    rw [h1]
    decide
  have h2 : round_half_even ((80 : ℚ) * 10) = 800 := by
    unfold round_half_even
    norm_num
  have hf80 : fmtFix1 80 = "80.0" := by
    unfold fmtFix1
    rw [h2]
    decide
  constructor
  · unfold format_chart
    rw [hb, c9_lines_empty, hf120, hf80]
    decide
  · rw [hb, c9_lines_empty]
    rfl

/-- C9 (amended).  Output layout: every chart produced by `format_chart`
is the disclaimer text (three lines), a blank line, **five**
`Label: value` header lines (Title, BPM, Key, Time Signature, Lyric
Transcription Confidence), a blank line, and exactly one chart line per
bar, all joined by newlines; each chart line carries the chord and lyric
columns separated by a single tab (see `render_line`). -/
theorem C9_layout_amended (title : String) (bpm : ℚ) (key time_sig : String)
    (lyrics : List LyricSeg) (chords : List ChordEvt) (beat_times : List ℚ)
    (confidence : ℚ) :
    format_chart title bpm key time_sig lyrics chords beat_times confidence =
      joinSep "\n"
        (["ULTIMATE CHORD READER uses automated stem separation and AI analysis.",
          "All audio files and stems are automatically deleted immediately after processing.",
          "Results are best‑effort guesses; verify before public use.",
          "",
          "Title: " ++ title,
          "BPM: " ++ fmtFix1 bpm,
          "Key: " ++ key,
          "Time Signature: " ++ time_sig,
          "Lyric Transcription Confidence: " ++ fmtFix1 confidence ++ "%",
          ""] ++
          format_chart_lines lyrics chords beat_times bpm (beats_per_bar time_sig)) := by
  unfold format_chart
  have hd : rstrip DISCLAIMER =
      "ULTIMATE CHORD READER uses automated stem separation and AI analysis." ++ "\n" ++
        "All audio files and stems are automatically deleted immediately after processing." ++ "\n" ++
        "Results are best‑effort guesses; verify before public use." := by decide
  rw [hd]
  simp only [List.cons_append, List.nil_append, joinSep, String.append_assoc]

/-!  ## Lemmas about lyric-to-bar assignment  -/

/-- The assignment loop of lines 176-178 always stops strictly before the
end of a nonempty bar-start list. -/
theorem lyric_bar_idx_aux_lt (g : ℚ) :
    ∀ l : List ℚ, ∀ idx : ℕ, l ≠ [] → lyric_bar_idx_aux g l idx < idx + l.length := by
  intro l
  induction l with
  | nil => intro idx h; exact absurd rfl h
  | cons x xs ih =>
    intro idx _
    cases xs with
    | nil =>
      have heq : lyric_bar_idx_aux g [x] idx = idx := rfl
      rw [heq]
      simp
    | cons y rest =>
      by_cases hy : y ≤ g
      · have heq : lyric_bar_idx_aux g (x :: y :: rest) idx =
            lyric_bar_idx_aux g (y :: rest) (idx + 1) := by
          simp [lyric_bar_idx_aux, hy]
        rw [heq]
        have h2 := ih (idx + 1) (by simp)
        simp only [List.length_cons] at h2 ⊢
        omega
      · have heq : lyric_bar_idx_aux g (x :: y :: rest) idx = idx := by
          simp [lyric_bar_idx_aux, hy]
        rw [heq]
        simp only [List.length_cons]
        omega

/-- If every bar start after position `idx` is at most the shifted lyric
start, the assignment loop walks to the final bar. -/
theorem lyric_bar_idx_aux_last (g : ℚ) :
    ∀ l : List ℚ, ∀ idx : ℕ, l ≠ [] → (∀ x ∈ l.tail, x ≤ g) →
      lyric_bar_idx_aux g l idx = idx + l.length - 1 := by
  intro l
  induction l with
  | nil => intro idx h _; exact absurd rfl h
  | cons x xs ih =>
    intro idx _ htail
    cases xs with
    | nil =>
      have heq : lyric_bar_idx_aux g [x] idx = idx := rfl
      rw [heq]
      simp
    | cons y rest =>
      have hy : y ≤ g := htail y (by simp)
      have heq : lyric_bar_idx_aux g (x :: y :: rest) idx =
          lyric_bar_idx_aux g (y :: rest) (idx + 1) := by
        simp [lyric_bar_idx_aux, hy]
      rw [heq]
      have h2 := ih (idx + 1) (by simp) (fun z hz => htail z (by simp at hz ⊢; exact .inr hz))
      rw [h2]
      simp only [List.length_cons]
      omega

/-- A lyric whose shifted start lies strictly before the second bar start
is assigned to the first bar. -/
theorem lyric_first_bar (bs : List ℚ) (s : ℚ) (h2 : 2 ≤ bs.length)
    (hgt : ¬ (bs.getD 1 0 ≤ s + 1 / 4)) : lyric_bar_idx bs s = 0 := by
  cases bs with
  | nil => simp at h2
  | cons b0 t =>
    cases t with
    | nil => simp at h2
    | cons b1 rest =>
      rw [List.getD_cons_succ, List.getD_cons_zero] at hgt
      unfold lyric_bar_idx
      rw [show lyric_bar_idx_aux (s + 1 / 4) (b0 :: b1 :: rest) 0 =
          if b1 ≤ s + 1 / 4 then lyric_bar_idx_aux (s + 1 / 4) (b1 :: rest) 1 else 0
        from rfl, if_neg hgt]

/-- A lyric whose shifted start is at or past every later bar start is
assigned to the last bar. -/
theorem lyric_last_bar (bs : List ℚ) (s : ℚ) (hne : bs ≠ [])
    (hall : ∀ x ∈ bs.tail, x ≤ s + 1 / 4) :
    lyric_bar_idx bs s = bs.length - 1 := by
  unfold lyric_bar_idx
  have := lyric_bar_idx_aux_last (s + 1 / 4) bs 0 hne hall
  simpa using this

/-- C10.  Lyric segments are never dropped: every lyric segment is
assigned to exactly one bar index, always strictly below the bar count;
its text is an entry of that bar's text list, whose space-joined, stripped
form is exactly the bar's lyric column, and the bar's chart line renders
that column; a segment whose shifted start (`start + 0.25`) lies before
the second bar start lands in the first bar, and one whose shifted start
is at or past every later bar start lands in the last bar — regardless of
its distance to any beat. -/
theorem C10_lyrics_never_dropped (lyrics : List LyricSeg) (chords : List ChordEvt)
    (beat_times : List ℚ) (bpm : ℚ) (bpb : ℕ) (l : LyricSeg) (hl : l ∈ lyrics) :
    lyric_bar_idx (chart_bar_starts lyrics chords beat_times bpm bpb) l.1 <
        (chart_bar_starts lyrics chords beat_times bpm bpb).length ∧
      l.2.2.1 ∈ lyrics_in_bar (chart_bar_starts lyrics chords beat_times bpm bpb)
        lyrics (lyric_bar_idx (chart_bar_starts lyrics chords beat_times bpm bpb) l.1) ∧
      (∀ j, (l ∈ lyrics.filter (fun m =>
          decide (lyric_bar_idx (chart_bar_starts lyrics chords beat_times bpm bpb) m.1 = j))) ↔
        j = lyric_bar_idx (chart_bar_starts lyrics chords beat_times bpm bpb) l.1) ∧
      (2 ≤ (chart_bar_starts lyrics chords beat_times bpm bpb).length →
        ¬ ((chart_bar_starts lyrics chords beat_times bpm bpb).getD 1 0 ≤ l.1 + 1 / 4) →
        lyric_bar_idx (chart_bar_starts lyrics chords beat_times bpm bpb) l.1 = 0) ∧
      ((∀ x ∈ (chart_bar_starts lyrics chords beat_times bpm bpb).tail, x ≤ l.1 + 1 / 4) →
        lyric_bar_idx (chart_bar_starts lyrics chords beat_times bpm bpb) l.1 =
          (chart_bar_starts lyrics chords beat_times bpm bpb).length - 1) ∧
      ((chart_bars lyrics chords beat_times bpm bpb).getD
          (lyric_bar_idx (chart_bar_starts lyrics chords beat_times bpm bpb) l.1)
          ([], "")).2 =
        strip (joinSep " " (lyrics_in_bar (chart_bar_starts lyrics chords beat_times bpm bpb)
          lyrics (lyric_bar_idx (chart_bar_starts lyrics chords beat_times bpm bpb) l.1))) ∧
      (format_chart_lines lyrics chords beat_times bpm bpb).getD
          (lyric_bar_idx (chart_bar_starts lyrics chords beat_times bpm bpb) l.1) "?" =
        render_line ((chart_bars lyrics chords beat_times bpm bpb).getD
          (lyric_bar_idx (chart_bar_starts lyrics chords beat_times bpm bpb) l.1)
          ([], "")) := by
  have hne := chart_bar_starts_ne_nil lyrics chords beat_times bpm bpb
  have hidxlt : lyric_bar_idx (chart_bar_starts lyrics chords beat_times bpm bpb) l.1 <
      (chart_bar_starts lyrics chords beat_times bpm bpb).length := by
    unfold lyric_bar_idx
    have := lyric_bar_idx_aux_lt (l.1 + 1 / 4)
      (chart_bar_starts lyrics chords beat_times bpm bpb) 0 hne
    simpa using this
  refine ⟨hidxlt, ?_, ?_, ?_, ?_, ?_, ?_⟩
  · unfold lyrics_in_bar
    exact List.mem_map.mpr ⟨l, List.mem_filter.mpr ⟨hl, by simp⟩, rfl⟩
  · intro j
    constructor
    · intro hj
      have h := (List.mem_filter.mp hj).2
      simp only [decide_eq_true_eq] at h
      exact h.symm
    · intro hj
      rw [hj]
      exact List.mem_filter.mpr ⟨hl, by simp⟩
  · exact lyric_first_bar _ _
  · exact lyric_last_bar _ _ hne
  · unfold chart_bars
    have := chart_bars_go_snd
      (lyrics_in_bar (chart_bar_starts lyrics chords beat_times bpm bpb) lyrics)
      (bar_intervals (chart_bar_starts lyrics chords beat_times bpm bpb)
        (chart_est beat_times bpm bpb))
      0 chords none
      (lyric_bar_idx (chart_bar_starts lyrics chords beat_times bpm bpb) l.1)
      (by rw [bar_intervals_length]; exact hidxlt)
    simpa using this
  · unfold format_chart_lines
    exact getD_map render_line _ _ ([], "") "?"
      (by rw [chart_bars_length]; exact hidxlt)

/-- Witness for C10 at one lyric segment, no chords, beats `[0 … 4]`: the
segment's bar index is in range and its text is in that bar's text list. -/
theorem C10_lyrics_never_dropped_witness :
    lyric_bar_idx (chart_bar_starts [(0, 1, "foo", 9 / 10)] [] [0, 1, 2, 3, 4] 60 4) 0 <
        (chart_bar_starts [(0, 1, "foo", 9 / 10)] [] [0, 1, 2, 3, 4] 60 4).length ∧
      "foo" ∈ lyrics_in_bar (chart_bar_starts [(0, 1, "foo", 9 / 10)] [] [0, 1, 2, 3, 4] 60 4)
        [(0, 1, "foo", 9 / 10)]
        (lyric_bar_idx (chart_bar_starts [(0, 1, "foo", 9 / 10)] [] [0, 1, 2, 3, 4] 60 4) 0) :=
  ⟨(C10_lyrics_never_dropped [(0, 1, "foo", 9 / 10)] [] [0, 1, 2, 3, 4] 60 4
      (0, 1, "foo", 9 / 10) (by simp)).1,
    (C10_lyrics_never_dropped [(0, 1, "foo", 9 / 10)] [] [0, 1, 2, 3, 4] 60 4
      (0, 1, "foo", 9 / 10) (by simp)).2.1⟩

end UCR
